import Mathlib

/-!
Verification of the AgoraX_Audio signaling server core
(`src/unnamed/part_002`, the capacity-enforcing idempotent variant that the
specification designates as authoritative).

The server keeps `rooms : Record<string, { users: string[] }>`, a mutable
registry mapping room identifiers to the ordered list of member connection
identities, and reacts to the inbound events `join-voice-room`,
`leave-voice-room`, `voice-offer`, `voice-answer`, `ice-candidate` and the
transport-level `disconnect`.  Each handler is embedded below as a pure
function from the registry (plus the sender's connection id and the event
payload) to the new registry together with the list of emitted outbound
events and the list of finalize-hook request URLs issued.
-/

namespace AgoraX

/-- Connection identity: the socket id string assigned by the transport. -/
abbrev ConnId := String

/-- Room identifier: a caller-supplied string used verbatim as a key. -/
abbrev RoomId := String

/-- The room registry `rooms : Record<string, { users: string[] }>`
(`part_002` line 35), modelled as an insertion-ordered association list:
JavaScript string-keyed records enumerate keys in insertion order, which the
`disconnect` handler's `for...in` loop relies on. -/
abbrev Registry := List (RoomId × List ConnId)

/-- `rooms[roomId]`: key lookup in the registry. -/
def lookupRoom : Registry → RoomId → Option (List ConnId)
  | [], _ => none
  | p :: rest, r => if p.1 = r then some p.2 else lookupRoom rest r

/-- `rooms[roomId] = { users }`: update the existing key in place, or append
the new key at the end (JavaScript record assignment keeps the key's
insertion position, and a fresh key goes last). -/
def setRoom : Registry → RoomId → List ConnId → Registry
  | [], r, vs => [(r, vs)]
  | p :: rest, r, vs => if p.1 = r then (r, vs) :: rest else p :: setRoom rest r vs

/-- `delete rooms[roomId]`: remove the key from the registry. -/
def eraseRoom : Registry → RoomId → Registry
  | [], _ => []
  | p :: rest, r => if p.1 = r then eraseRoom rest r else p :: eraseRoom rest r

/-- Membership count of a room; 0 for an unknown room. -/
def roomSize (s : Registry) (r : RoomId) : Nat :=
  ((lookupRoom s r).getD []).length

/-- Outbound events emitted by the handlers.  `α` is the opaque payload type
of the relayed session descriptions and ICE candidates.  `roomFull` is a
`socket.emit` to the requester only; `userJoined` is a `socket.to(roomId)`
broadcast excluding the sender; `userLeft` is an `io.to(roomId)` broadcast;
the three relay events are `io.to(to)` sends. -/
inductive Event (α : Type) where
  | roomFull (target : ConnId) (roomId : RoomId) (max : Nat)
  | userJoined (roomId : RoomId) (excluding : ConnId) (who : ConnId)
  | userLeft (roomId : RoomId) (who : ConnId)
  | voiceOffer (tgt : ConnId) (sender : ConnId) (offer : α) (roomId : RoomId)
  | voiceAnswer (tgt : ConnId) (sender : ConnId) (answer : α) (roomId : RoomId)
  | iceCandidate (tgt : ConnId) (sender : ConnId) (candidate : α)
  deriving DecidableEq

/-- Whether an event is a `user-joined` broadcast. -/
def Event.isUserJoined {α : Type} : Event α → Bool
  | Event.userJoined _ _ _ => true
  | _ => false

/-- Outcome of one `fetch` call as observed by the finalize block: the
promise either resolves to a response (whose body may or may not parse as
JSON) or rejects with a network error. -/
inductive FetchOutcome where
  | ok (bodyIsJson : Bool)
  | networkError

/-- `base.replace(/\/+$/, '')`: strip the trailing run of `/` characters
(char code 47) from the configured base URL. -/
def stripTrailingSlashes (s : String) : String :=
  String.mk ((s.data.reverse.dropWhile (fun c => c == Char.ofNat 47)).reverse)

/-- Is `c` left unescaped by JavaScript `encodeURIComponent`?  These are
`A-Z a-z 0-9 - _ . ! ~ * ' ( )` (char codes given numerically). -/
def isUnreservedChar (c : Char) : Bool :=
  let n := c.toNat
  (65 ≤ n && n ≤ 90) || (97 ≤ n && n ≤ 122) || (48 ≤ n && n ≤ 57) ||
    n == 45 || n == 95 || n == 46 || n == 33 || n == 126 ||
    n == 42 || n == 39 || n == 40 || n == 41

/-- One hexadecimal digit (uppercase), for percent-escapes. -/
def hexDigit (n : Nat) : Char :=
  if n < 10 then Char.ofNat (48 + n) else Char.ofNat (55 + n)

/-- UTF-8 encoding of a code point, as the list of its byte values. -/
def utf8Bytes (n : Nat) : List Nat :=
  if n < 128 then [n]
  else if n < 2048 then [192 + n / 64, 128 + n % 64]
  else if n < 65536 then [224 + n / 4096, 128 + n / 64 % 64, 128 + n % 64]
  else [240 + n / 262144, 128 + n / 4096 % 64, 128 + n / 64 % 64, 128 + n % 64]

/-- The three characters of one percent-escape `%XY`. -/
def percentByte (b : Nat) : List Char :=
  [Char.ofNat 37, hexDigit (b / 16), hexDigit (b % 16)]

/-- JavaScript `encodeURIComponent`: unreserved characters pass through,
every other character is percent-escaped byte-by-byte in UTF-8. -/
def encodeURIComponent (s : String) : String :=
  String.mk (s.data.flatMap fun c =>
    if isUnreservedChar c then [c] else (utf8Bytes c.toNat).flatMap percentByte)

/-- The finalize URL built by both the `leave-voice-room` and `disconnect`
handlers:
`` `${base.replace(/\/+$/,'')}/api/audio/finalize?roomId=${encodeURIComponent(roomId)}` ``. -/
def buildFinalizeUrl (base : String) (roomId : RoomId) : String :=
  stripTrailingSlashes base ++ "/api/audio/finalize?roomId=" ++ encodeURIComponent roomId

/-- The fire-and-forget finalize block run when a room becomes empty
(`part_002` lines 87-115 and 170-191).  `fetch` is an oracle giving the
outcome of the outbound POST; `cfg` is `process.env.RESUME_BASE`.  Returns
the list of request URLs actually attempted.  When no base URL is
configured the block is skipped; when the fetch rejects or its body fails
to parse, the surrounding `try`/`catch` swallows the error, so the attempt
is recorded and nothing else happens in every branch. -/
def finalizeBlock (fetch : String → FetchOutcome) (cfg : Option String)
    (roomId : RoomId) : List String :=
  match cfg with
  | none => []
  | some base =>
    let url := buildFinalizeUrl base roomId
    match fetch url with
    | FetchOutcome.ok _ => [url]
    | FetchOutcome.networkError => [url]

/-- The `join-voice-room` handler (`part_002` lines 46-73): create the room
if absent, reject with `room-full` at 10 or more users, add the sender only
if not already present, and broadcast `user-joined` only on a new entry. -/
def joinVoiceRoom {α : Type} (rooms : Registry) (sid : ConnId) (roomId : RoomId) :
    Registry × List (Event α) :=
  let rooms₁ := match lookupRoom rooms roomId with
    | none => setRoom rooms roomId []
    | some _ => rooms
  let users := (lookupRoom rooms₁ roomId).getD []
  if 10 ≤ users.length then
    (rooms₁, [Event.roomFull sid roomId 10])
  else if sid ∈ users then
    (rooms₁, [])
  else
    (setRoom rooms₁ roomId (users ++ [sid]), [Event.userJoined roomId sid sid])

/-- The `leave-voice-room` handler (`part_002` lines 78-123): if the room
exists, filter the sender out of its user list, broadcast `user-left` to the
room, and if the list became empty run the finalize block and delete the
room.  If the room is unknown, nothing happens. -/
def leaveVoiceRoom {α : Type} (fetch : String → FetchOutcome) (cfg : Option String)
    (rooms : Registry) (sid : ConnId) (roomId : RoomId) :
    Registry × List (Event α) × List String :=
  match lookupRoom rooms roomId with
  | none => (rooms, [], [])
  | some users =>
    let users' := users.filter (fun u => u ≠ sid)
    let rooms₂ := setRoom rooms roomId users'
    if users'.length = 0 then
      (eraseRoom rooms₂ roomId, [Event.userLeft roomId sid],
        finalizeBlock fetch cfg roomId)
    else
      (rooms₂, [Event.userLeft roomId sid], [])

/-- The `disconnect` handler (`part_002` lines 160-196): iterate over every
room in the registry in insertion order; in each, filter the sender out of
the user list and broadcast `user-left` to the room, then if the list became
empty run the finalize block and delete the room. -/
def disconnectHandler {α : Type} (fetch : String → FetchOutcome) (cfg : Option String)
    (rooms : Registry) (sid : ConnId) :
    Registry × List (Event α) × List String :=
  match rooms with
  | [] => ([], [], [])
  | (r, users) :: rest =>
    let users' := users.filter (fun u => u ≠ sid)
    let res := disconnectHandler fetch cfg rest sid
    if users'.length = 0 then
      (res.1, Event.userLeft r sid :: res.2.1, finalizeBlock fetch cfg r ++ res.2.2)
    else
      ((r, users') :: res.1, Event.userLeft r sid :: res.2.1, res.2.2)

/-- Inbound events a connection can send (plus the transport disconnect). -/
inductive Msg (α : Type) where
  | join (roomId : RoomId)
  | leave (roomId : RoomId)
  | voiceOffer (roomId : RoomId) (offer : α) (tgt : ConnId)
  | voiceAnswer (roomId : RoomId) (answer : α) (tgt : ConnId)
  | iceCandidate (candidate : α) (tgt : ConnId)
  | disconnect

/-- One step of the relay controller: dispatch an inbound event from
connection `sid` to its handler.  The relay handlers (`part_002` lines
128-155) forward the payload unchanged to `io.to(to)`, annotated with
`from: socket.id` (and `roomId` echoed for offer/answer); they never touch
the registry. -/
def serverStep {α : Type} (fetch : String → FetchOutcome) (cfg : Option String)
    (rooms : Registry) (sid : ConnId) :
    Msg α → Registry × List (Event α) × List String
  | Msg.join roomId =>
    ((joinVoiceRoom (α := α) rooms sid roomId).1,
      (joinVoiceRoom (α := α) rooms sid roomId).2, [])
  | Msg.leave roomId => leaveVoiceRoom fetch cfg rooms sid roomId
  | Msg.voiceOffer roomId offer tgt =>
    (rooms, [Event.voiceOffer tgt sid offer roomId], [])
  | Msg.voiceAnswer roomId answer tgt =>
    (rooms, [Event.voiceAnswer tgt sid answer roomId], [])
  | Msg.iceCandidate candidate tgt =>
    (rooms, [Event.iceCandidate tgt sid candidate], [])
  | Msg.disconnect => disconnectHandler fetch cfg rooms sid

/-- Run a trace of inbound events (each tagged with its sender) from the
initial empty registry, returning the final registry. -/
def runServer {α : Type} (fetch : String → FetchOutcome) (cfg : Option String)
    (trace : List (ConnId × Msg α)) : Registry :=
  trace.foldl (fun s p => (serverStep fetch cfg s p.1 p.2).1) []

/-- Modelled from the spec: the transport-layer point-to-point send
primitive (socket.io's `io.to(to).emit(...)`, which is not part of this
repository's sources).  Per the spec, a send addressed `to` a live
connection is delivered to exactly that connection, and a send addressed to
an identity with no corresponding live connection is simply dropped, with
no error surfaced to the sender. -/
def deliverTo (live : List ConnId) (tgt : ConnId) : List ConnId :=
  if tgt ∈ live then [tgt] else []


/-! ### Registry lemmas -/

theorem lookup_setRoom_self (s : Registry) (r : RoomId) (vs : List ConnId) :
    lookupRoom (setRoom s r vs) r = some vs := by
  induction s with
  | nil => simp [setRoom, lookupRoom]
  | cons p rest ih =>
    by_cases h : p.1 = r
    · simp [setRoom, h, lookupRoom]
    · simp [setRoom, h, lookupRoom, ih]

theorem lookup_setRoom_ne (s : Registry) (r q : RoomId) (vs : List ConnId)
    (h : q ≠ r) : lookupRoom (setRoom s r vs) q = lookupRoom s q := by
  induction s with
  | nil => simp [setRoom, lookupRoom, Ne.symm h]
  | cons p rest ih =>
    by_cases hp : p.1 = r
    · subst hp
      simp [setRoom, lookupRoom, Ne.symm h]
    · simp [setRoom, hp, lookupRoom, ih]

theorem lookup_eraseRoom_self (s : Registry) (r : RoomId) :
    lookupRoom (eraseRoom s r) r = none := by
  induction s with
  | nil => simp [eraseRoom, lookupRoom]
  | cons p rest ih =>
    by_cases h : p.1 = r
    · simp [eraseRoom, h, ih]
    · simp [eraseRoom, h, lookupRoom, ih]

theorem lookup_eraseRoom_ne (s : Registry) (r q : RoomId) (h : q ≠ r) :
    lookupRoom (eraseRoom s r) q = lookupRoom s q := by
  induction s with
  | nil => simp [eraseRoom]
  | cons p rest ih =>
    by_cases hp : p.1 = r
    · subst hp
      simp [eraseRoom, lookupRoom, Ne.symm h, ih]
    · simp [eraseRoom, hp, lookupRoom, ih]

theorem mem_setRoom (s : Registry) (r : RoomId) (vs : List ConnId)
    (p : RoomId × List ConnId) (hp : p ∈ setRoom s r vs) :
    p ∈ s ∨ p = (r, vs) := by
  induction s with
  | nil => simp [setRoom] at hp; simp [hp]
  | cons q rest ih =>
    by_cases hq : q.1 = r
    · simp [setRoom, hq] at hp
      rcases hp with h | h
      · right; simp [h]
      · left; simp [h]
    · simp [setRoom, hq] at hp
      rcases hp with h | h
      · left; simp [h]
      · rcases ih h with h' | h'
        · left; simp [h']
        · right; exact h'

theorem mem_eraseRoom (s : Registry) (r : RoomId)
    (p : RoomId × List ConnId) (hp : p ∈ eraseRoom s r) : p ∈ s := by
  induction s with
  | nil => simp [eraseRoom] at hp
  | cons q rest ih =>
    by_cases hq : q.1 = r
    · simp [eraseRoom, hq] at hp
      exact List.mem_cons_of_mem _ (ih hp)
    · simp [eraseRoom, hq] at hp
      rcases hp with h | h
      · simp [h]
      · exact List.mem_cons_of_mem _ (ih h)

theorem setRoom_lookup_eq (s : Registry) (r : RoomId) (vs : List ConnId)
    (h : lookupRoom s r = some vs) : setRoom s r vs = s := by
  induction s with
  | nil => simp [lookupRoom] at h
  | cons p rest ih =>
    by_cases hp : p.1 = r
    · cases p with
      | mk p1 p2 =>
        simp at hp
        subst hp
        simp [lookupRoom] at h
        subst h
        simp [setRoom]
    · simp [lookupRoom, hp] at h
      simp [setRoom, hp, ih h]

theorem eraseRoom_setRoom (s : Registry) (r : RoomId) (vs : List ConnId) :
    eraseRoom (setRoom s r vs) r = eraseRoom s r := by
  induction s with
  | nil => simp [setRoom, eraseRoom]
  | cons p rest ih =>
    by_cases hp : p.1 = r
    · simp [setRoom, hp, eraseRoom]
    · simp [setRoom, hp, eraseRoom, ih]

theorem setRoom_setRoom (s : Registry) (r : RoomId) (us vs : List ConnId) :
    setRoom (setRoom s r us) r vs = setRoom s r vs := by
  induction s with
  | nil => simp [setRoom]
  | cons p rest ih =>
    by_cases hp : p.1 = r
    · simp [setRoom, hp]
    · simp [setRoom, hp, ih]

theorem lookup_mem (s : Registry) (r : RoomId) (us : List ConnId)
    (h : lookupRoom s r = some us) : (r, us) ∈ s := by
  induction s with
  | nil => simp [lookupRoom] at h
  | cons p rest ih =>
    by_cases hp : p.1 = r
    · cases p with
      | mk p1 p2 =>
        simp at hp
        subst hp
        simp [lookupRoom] at h
        subst h
        simp
    · simp [lookupRoom, hp] at h
      exact List.mem_cons_of_mem _ (ih h)

/-! ### Handler characterizations and invariants -/

/-- The registry left by the `disconnect` handler: every room's user list is
filtered, and rooms whose filtered list is empty are dropped. -/
theorem disconnect_registry_eq {α : Type} (fetch : String → FetchOutcome)
    (cfg : Option String) (s : Registry) (sid : ConnId) :
    (disconnectHandler (α := α) fetch cfg s sid).1
      = s.filterMap (fun p =>
          let us := p.2.filter (fun u => u ≠ sid)
          if us.length = 0 then none else some (p.1, us)) := by
  induction s with
  | nil => simp [disconnectHandler]
  | cons q rest ih =>
    obtain ⟨r, users⟩ := q
    simp only [disconnectHandler, List.filterMap_cons]
    by_cases he : (users.filter (fun u => u ≠ sid)).length = 0
    · rw [if_pos he, if_pos he]
      exact ih
    · rw [if_neg he, if_neg he]
      simp [ih]

/-- The `disconnect` handler broadcasts one `user-left` to every room in the
registry, in insertion order, whether or not the disconnecting connection
was a member. -/
theorem disconnect_events_eq {α : Type} (fetch : String → FetchOutcome)
    (cfg : Option String) (s : Registry) (sid : ConnId) :
    (disconnectHandler (α := α) fetch cfg s sid).2.1
      = s.map (fun p => Event.userLeft p.1 sid) := by
  induction s with
  | nil => simp [disconnectHandler]
  | cons q rest ih =>
    obtain ⟨r, users⟩ := q
    simp only [disconnectHandler, List.map_cons]
    by_cases he : (users.filter (fun u => u ≠ sid)).length = 0
    · rw [if_pos he]
      simp [ih]
    · rw [if_neg he]
      simp [ih]

/-- Capacity invariant: every room in the registry holds at most 10 users. -/
def CapInv (s : Registry) : Prop := ∀ p ∈ s, p.2.length ≤ 10

/-- Non-emptiness invariant: no room in the registry has an empty user list. -/
def NonEmptyInv (s : Registry) : Prop := ∀ p ∈ s, p.2 ≠ []

theorem roomSize_le_of_capInv (s : Registry) (h : CapInv s) (r : RoomId) :
    roomSize s r ≤ 10 := by
  unfold roomSize
  cases hl : lookupRoom s r with
  | none => simp
  | some us => simpa using h _ (lookup_mem s r us hl)

theorem capInv_setRoom (s : Registry) (r : RoomId) (vs : List ConnId)
    (h : CapInv s) (hv : vs.length ≤ 10) : CapInv (setRoom s r vs) := by
  intro p hp
  rcases mem_setRoom s r vs p hp with h' | h'
  · exact h p h'
  · subst h'; exact hv

theorem nonEmptyInv_setRoom (s : Registry) (r : RoomId) (vs : List ConnId)
    (h : NonEmptyInv s) (hv : vs ≠ []) : NonEmptyInv (setRoom s r vs) := by
  intro p hp
  rcases mem_setRoom s r vs p hp with h' | h'
  · exact h p h'
  · subst h'; exact hv

theorem capInv_eraseRoom (s : Registry) (r : RoomId) (h : CapInv s) :
    CapInv (eraseRoom s r) :=
  fun p hp => h p (mem_eraseRoom s r p hp)

theorem nonEmptyInv_eraseRoom (s : Registry) (r : RoomId) (h : NonEmptyInv s) :
    NonEmptyInv (eraseRoom s r) :=
  fun p hp => h p (mem_eraseRoom s r p hp)

/-! ### Invariant preservation -/

theorem capInv_join {α : Type} (s : Registry) (sid : ConnId) (q : RoomId)
    (h : CapInv s) : CapInv (joinVoiceRoom (α := α) s sid q).1 := by
  cases hl : lookupRoom s q with
  | none =>
    simp only [joinVoiceRoom, hl, lookup_setRoom_self, Option.getD_some]
    simp [setRoom_setRoom]
    exact capInv_setRoom s q [sid] h (by simp)
  | some users =>
    by_cases hfull : 10 ≤ users.length
    · simp [joinVoiceRoom, hl, hfull]
      exact h
    · by_cases hmem : sid ∈ users
      · simp [joinVoiceRoom, hl, hfull, hmem]
        exact h
      · simp [joinVoiceRoom, hl, hfull, hmem]
        refine capInv_setRoom s q (users ++ [sid]) h ?_
        simp
        omega

theorem nonEmptyInv_join {α : Type} (s : Registry) (sid : ConnId) (q : RoomId)
    (h : NonEmptyInv s) : NonEmptyInv (joinVoiceRoom (α := α) s sid q).1 := by
  cases hl : lookupRoom s q with
  | none =>
    simp only [joinVoiceRoom, hl, lookup_setRoom_self, Option.getD_some]
    simp [setRoom_setRoom]
    exact nonEmptyInv_setRoom s q [sid] h (by simp)
  | some users =>
    by_cases hfull : 10 ≤ users.length
    · simp [joinVoiceRoom, hl, hfull]
      exact h
    · by_cases hmem : sid ∈ users
      · simp [joinVoiceRoom, hl, hfull, hmem]
        exact h
      · simp [joinVoiceRoom, hl, hfull, hmem]
        exact nonEmptyInv_setRoom s q (users ++ [sid]) h (by simp)

theorem capInv_leave {α : Type} (fetch : String → FetchOutcome)
    (cfg : Option String) (s : Registry) (sid : ConnId) (r : RoomId)
    (h : CapInv s) : CapInv (leaveVoiceRoom (α := α) fetch cfg s sid r).1 := by
  cases hl : lookupRoom s r with
  | none => simpa [leaveVoiceRoom, hl] using h
  | some users =>
    simp only [leaveVoiceRoom, hl]
    by_cases he : (users.filter (fun u => u ≠ sid)).length = 0
    · rw [if_pos he, eraseRoom_setRoom]
      exact capInv_eraseRoom s r h
    · rw [if_neg he]
      refine capInv_setRoom s r _ h ?_
      refine le_trans (List.length_filter_le _ _) ?_
      simpa using h _ (lookup_mem s r users hl)

theorem nonEmptyInv_leave {α : Type} (fetch : String → FetchOutcome)
    (cfg : Option String) (s : Registry) (sid : ConnId) (r : RoomId)
    (h : NonEmptyInv s) : NonEmptyInv (leaveVoiceRoom (α := α) fetch cfg s sid r).1 := by
  cases hl : lookupRoom s r with
  | none => simpa [leaveVoiceRoom, hl] using h
  | some users =>
    simp only [leaveVoiceRoom, hl]
    by_cases he : (users.filter (fun u => u ≠ sid)).length = 0
    · rw [if_pos he, eraseRoom_setRoom]
      exact nonEmptyInv_eraseRoom s r h
    · rw [if_neg he]
      refine nonEmptyInv_setRoom s r _ h ?_
      intro hnil
      exact he (by rw [hnil]; rfl)

theorem capInv_disconnect {α : Type} (fetch : String → FetchOutcome)
    (cfg : Option String) (s : Registry) (sid : ConnId)
    (h : CapInv s) : CapInv (disconnectHandler (α := α) fetch cfg s sid).1 := by
  rw [disconnect_registry_eq]
  intro p hp
  obtain ⟨a, ha, hfa⟩ := List.mem_filterMap.mp hp
  simp only [] at hfa
  by_cases hc : (a.2.filter (fun u => u ≠ sid)).length = 0
  · rw [if_pos hc] at hfa
    cases hfa
  · rw [if_neg hc] at hfa
    obtain rfl := (Option.some.inj hfa).symm
    simp only []
    refine le_trans (List.length_filter_le _ _) ?_
    exact h a ha

theorem nonEmptyInv_disconnect {α : Type} (fetch : String → FetchOutcome)
    (cfg : Option String) (s : Registry) (sid : ConnId) :
    NonEmptyInv (disconnectHandler (α := α) fetch cfg s sid).1 := by
  rw [disconnect_registry_eq]
  intro p hp
  obtain ⟨a, ha, hfa⟩ := List.mem_filterMap.mp hp
  simp only [] at hfa
  by_cases hc : (a.2.filter (fun u => u ≠ sid)).length = 0
  · rw [if_pos hc] at hfa
    cases hfa
  · rw [if_neg hc] at hfa
    obtain rfl := (Option.some.inj hfa).symm
    simp only []
    intro hnil
    exact hc (by rw [hnil]; rfl)

theorem capInv_serverStep {α : Type} (fetch : String → FetchOutcome)
    (cfg : Option String) (s : Registry) (sid : ConnId) (m : Msg α)
    (h : CapInv s) : CapInv (serverStep fetch cfg s sid m).1 := by
  cases m with
  | join roomId => simpa [serverStep] using capInv_join (α := α) s sid roomId h
  | leave roomId => simpa [serverStep] using capInv_leave (α := α) fetch cfg s sid roomId h
  | voiceOffer roomId offer tgt => simpa [serverStep] using h
  | voiceAnswer roomId answer tgt => simpa [serverStep] using h
  | iceCandidate candidate tgt => simpa [serverStep] using h
  | disconnect => simpa [serverStep] using capInv_disconnect (α := α) fetch cfg s sid h

theorem nonEmptyInv_serverStep {α : Type} (fetch : String → FetchOutcome)
    (cfg : Option String) (s : Registry) (sid : ConnId) (m : Msg α)
    (h : NonEmptyInv s) : NonEmptyInv (serverStep fetch cfg s sid m).1 := by
  cases m with
  | join roomId => simpa [serverStep] using nonEmptyInv_join (α := α) s sid roomId h
  | leave roomId => simpa [serverStep] using nonEmptyInv_leave (α := α) fetch cfg s sid roomId h
  | voiceOffer roomId offer tgt => simpa [serverStep] using h
  | voiceAnswer roomId answer tgt => simpa [serverStep] using h
  | iceCandidate candidate tgt => simpa [serverStep] using h
  | disconnect => simpa [serverStep] using nonEmptyInv_disconnect (α := α) fetch cfg s sid

theorem capInv_runServer {α : Type} (fetch : String → FetchOutcome)
    (cfg : Option String) (trace : List (ConnId × Msg α)) :
    CapInv (runServer fetch cfg trace) := by
  suffices h : ∀ s, CapInv s →
      CapInv (trace.foldl (fun s p => (serverStep fetch cfg s p.1 p.2).1) s) by
    refine h [] ?_
    intro p hp
    simp at hp
  induction trace with
  | nil =>
    intro s hs
    simpa using hs
  | cons m rest ih =>
    intro s hs
    simpa using ih _ (capInv_serverStep fetch cfg s m.1 m.2 hs)

theorem nonEmptyInv_runServer {α : Type} (fetch : String → FetchOutcome)
    (cfg : Option String) (trace : List (ConnId × Msg α)) :
    NonEmptyInv (runServer fetch cfg trace) := by
  suffices h : ∀ s, NonEmptyInv s →
      NonEmptyInv (trace.foldl (fun s p => (serverStep fetch cfg s p.1 p.2).1) s) by
    refine h [] ?_
    intro p hp
    simp at hp
  induction trace with
  | nil =>
    intro s hs
    simpa using hs
  | cons m rest ih =>
    intro s hs
    simpa using ih _ (nonEmptyInv_serverStep fetch cfg s m.1 m.2 hs)

/-! ### Claims -/

/-- C1: room capacity.  (i) Along every trace of inbound events from the
initial empty registry — in particular every sequence of joins by distinct
connections — no room's membership size ever exceeds 10.  (ii) A
`join-voice-room` for a room currently holding at least 10 users emits
`room-full{roomId, max: 10}` to the requester alone and leaves the registry
(hence the room's membership) unchanged. -/
theorem c1_room_capacity :
    (∀ (α : Type) (fetch : String → FetchOutcome) (cfg : Option String)
        (trace : List (ConnId × Msg α)) (r : RoomId),
      roomSize (runServer fetch cfg trace) r ≤ 10)
    ∧ (∀ (α : Type) (s : Registry) (sid : ConnId) (r : RoomId) (users : List ConnId),
        lookupRoom s r = some users → 10 ≤ users.length →
        joinVoiceRoom (α := α) s sid r = (s, [Event.roomFull sid r 10])) := by
  constructor
  · intro α fetch cfg trace r
    exact roomSize_le_of_capInv _ (capInv_runServer fetch cfg trace) r
  · intro α s sid r users hl hfull
    simp [joinVoiceRoom, hl, hfull]

/-- Witness for C1 at concrete inputs: a two-join trace stays within the
cap, and an 11th join into a room of 10 distinct users is rejected with
`room-full` and no registry change. -/
theorem c1_room_capacity_witness :
    roomSize (runServer (α := Unit) (fun _ => FetchOutcome.networkError) none
      [("a", Msg.join "r"), ("b", Msg.join "r")]) "r" ≤ 10
    ∧ joinVoiceRoom (α := Unit)
        [("r", ["u1", "u2", "u3", "u4", "u5", "u6", "u7", "u8", "u9", "u10"])] "c11" "r"
      = ([("r", ["u1", "u2", "u3", "u4", "u5", "u6", "u7", "u8", "u9", "u10"])],
          [Event.roomFull "c11" "r" 10]) :=
  ⟨c1_room_capacity.1 Unit (fun _ => FetchOutcome.networkError) none
      [("a", Msg.join "r"), ("b", Msg.join "r")] "r",
    c1_room_capacity.2 Unit
      [("r", ["u1", "u2", "u3", "u4", "u5", "u6", "u7", "u8", "u9", "u10"])] "c11" "r"
      ["u1", "u2", "u3", "u4", "u5", "u6", "u7", "u8", "u9", "u10"]
      (by decide) (by decide)⟩

/-- C3: join is idempotent.  (i) A `join-voice-room` from a connection that
is already a member of a non-full room performs no mutation and emits no
event (in particular no second `user-joined`).  (ii) Across any two
consecutive joins of the same room by the same connection, the room's
membership size grows by at most 1, and the second join emits no
`user-joined` broadcast. -/
theorem c3_join_idempotent :
    (∀ (α : Type) (s : Registry) (sid : ConnId) (r : RoomId) (users : List ConnId),
        lookupRoom s r = some users → sid ∈ users → users.length < 10 →
        joinVoiceRoom (α := α) s sid r = (s, []))
    ∧ (∀ (α : Type) (s : Registry) (sid : ConnId) (r : RoomId),
        roomSize (joinVoiceRoom (α := α) (joinVoiceRoom (α := α) s sid r).1 sid r).1 r
          ≤ roomSize s r + 1
        ∧ ∀ e ∈ (joinVoiceRoom (α := α) (joinVoiceRoom (α := α) s sid r).1 sid r).2,
            e.isUserJoined = false) := by
  constructor
  · intro α s sid r users hl hmem hlt
    have hfull : ¬ 10 ≤ users.length := by omega
    simp [joinVoiceRoom, hl, hfull, hmem]
  · intro α s sid r
    cases hl : lookupRoom s r with
    | none =>
      have h1 : (joinVoiceRoom (α := α) s sid r).1 = setRoom s r [sid] := by
        simp [joinVoiceRoom, hl, lookup_setRoom_self, setRoom_setRoom]
      rw [h1]
      have hl2 : lookupRoom (setRoom s r [sid]) r = some [sid] :=
        lookup_setRoom_self s r [sid]
      constructor
      · simp [joinVoiceRoom, hl2, roomSize, hl, lookup_setRoom_self]
      · simp [joinVoiceRoom, hl2]
    | some users =>
      by_cases hfull : 10 ≤ users.length
      · have h1 : joinVoiceRoom (α := α) s sid r = (s, [Event.roomFull sid r 10]) := by
          simp [joinVoiceRoom, hl, hfull]
        rw [h1]
        constructor
        · simp [joinVoiceRoom, hl, hfull, roomSize]
        · simp [joinVoiceRoom, hl, hfull, Event.isUserJoined]
      · by_cases hmem : sid ∈ users
        · have h1 : joinVoiceRoom (α := α) s sid r = (s, []) := by
            simp [joinVoiceRoom, hl, hfull, hmem]
          rw [h1]
          constructor
          · simp [joinVoiceRoom, hl, hfull, hmem, roomSize]
          · simp [joinVoiceRoom, hl, hfull, hmem]
        · have h1 : (joinVoiceRoom (α := α) s sid r).1 = setRoom s r (users ++ [sid]) := by
            simp [joinVoiceRoom, hl, hfull, hmem]
          rw [h1]
          have hl2 : lookupRoom (setRoom s r (users ++ [sid])) r = some (users ++ [sid]) :=
            lookup_setRoom_self s r (users ++ [sid])
          by_cases hfull2 : 9 ≤ users.length
          · constructor
            · simp [joinVoiceRoom, hl2, hfull2, roomSize, hl, lookup_setRoom_self]
            · simp [joinVoiceRoom, hl2, hfull2, Event.isUserJoined]
          · constructor
            · simp [joinVoiceRoom, hl2, hfull2, roomSize, hl, lookup_setRoom_self]
            · simp [joinVoiceRoom, hl2, hfull2]

/-- Witness for C3 at concrete inputs: a re-join by the sole member of a
one-user room is a silent no-op, and two joins by the same connection into
the empty registry leave room size 1 with no `user-joined` from the second
join. -/
theorem c3_join_idempotent_witness :
    joinVoiceRoom (α := Unit) [("r", ["a"])] "a" "r" = ([("r", ["a"])], [])
    ∧ (roomSize (joinVoiceRoom (α := Unit)
          (joinVoiceRoom (α := Unit) [] "a" "r").1 "a" "r").1 "r"
        ≤ roomSize [] "r" + 1
      ∧ ∀ e ∈ (joinVoiceRoom (α := Unit)
          (joinVoiceRoom (α := Unit) [] "a" "r").1 "a" "r").2,
            e.isUserJoined = false) :=
  ⟨c3_join_idempotent.1 Unit [("r", ["a"])] "a" "r" ["a"] (by decide) (by decide)
      (by decide),
    c3_join_idempotent.2 Unit [] "a" "r"⟩

/-- C4: along every trace of inbound events from the initial empty
registry, a room identifier is present in the registry if and only if its
participant set is non-empty — no handler ever leaves an empty room
behind. -/
theorem c4_room_present_iff_nonempty :
    ∀ (α : Type) (fetch : String → FetchOutcome) (cfg : Option String)
      (trace : List (ConnId × Msg α)) (r : RoomId),
      (lookupRoom (runServer fetch cfg trace) r).isSome
        ↔ roomSize (runServer fetch cfg trace) r ≠ 0 := by
  intro α fetch cfg trace r
  cases hl : lookupRoom (runServer fetch cfg trace) r with
  | none => simp [roomSize, hl]
  | some users =>
    have hne : users ≠ [] :=
      nonEmptyInv_runServer fetch cfg trace _ (lookup_mem _ r users hl)
    simp [roomSize, hl, List.length_eq_zero, hne]

/-! ### Shared helper lemmas for the leave/disconnect claims -/

/-- Filtering a connection out of a list it does not occur in is a no-op. -/
theorem filter_ne_eq_self (users : List ConnId) (sid : ConnId)
    (hmem : sid ∉ users) : users.filter (fun u => u ≠ sid) = users := by
  refine List.filter_eq_self.mpr ?_
  intro u hu
  simp only [decide_eq_true_eq]
  intro hEq
  exact hmem (hEq ▸ hu)

/-- The finalize block issues exactly one request — to the built URL — when
a base URL is configured, and none otherwise, regardless of the fetch
outcome. -/
theorem finalizeBlock_eq (fetch : String → FetchOutcome) (cfg : Option String)
    (r : RoomId) :
    finalizeBlock fetch cfg r
      = (match cfg with
         | some base => [buildFinalizeUrl base r]
         | none => []) := by
  cases cfg with
  | none => rfl
  | some base =>
    simp only [finalizeBlock]
    cases fetch (buildFinalizeUrl base r) <;> rfl

/-- A `leave-voice-room` by the last remaining member: the room is erased,
one `user-left` is broadcast, and the finalize block runs. -/
theorem leave_last_member {α : Type} (fetch : String → FetchOutcome)
    (cfg : Option String) (s : Registry) (sid : ConnId) (r : RoomId)
    (users : List ConnId) (hl : lookupRoom s r = some users)
    (hempty : users.filter (fun u => u ≠ sid) = []) :
    leaveVoiceRoom (α := α) fetch cfg s sid r
      = (eraseRoom s r, [Event.userLeft r sid], finalizeBlock fetch cfg r) := by
  have hlen : (users.filter (fun u => u ≠ sid)).length = 0 := by rw [hempty]; rfl
  simp only [leaveVoiceRoom, hl]
  rw [if_pos hlen, eraseRoom_setRoom]

/-- `filterMap` of a function that maps every element of a list to itself is
the identity on that list. -/
theorem filterMap_id_of_forall {β : Type} (f : β → Option β) (l : List β)
    (h : ∀ a ∈ l, f a = some a) : l.filterMap f = l := by
  induction l with
  | nil => simp
  | cons a rest ih =>
    rw [List.filterMap_cons, h a (by simp)]
    show a :: rest.filterMap f = a :: rest
    rw [ih (fun b hb => h b (List.mem_cons_of_mem _ hb))]

/-- C6 counterexample: a `leave-voice-room` for an existing room from a
connection that is not a member leaves the registry unchanged and signals no
error, but DOES broadcast `user-left` carrying the non-member's identity —
the claim as stated (no user-left emitted) is false on the code. -/
theorem c6_counterexample :
    leaveVoiceRoom (α := Unit) (fun _ => FetchOutcome.networkError) none
      [("r", ["a"])] "b" "r"
      = ([("r", ["a"])], [Event.userLeft "r" "b"], [])
    ∧ ("b" : ConnId) ∉ (["a"] : List ConnId) := by
  constructor
  · decide
  · decide

/-- C6 amended: a `leave-voice-room` for an unknown room is a complete
no-op (registry unchanged, no event, no finalize request, no error); for an
existing room whose member list does not contain the sender, the registry is
unchanged, no finalize request is issued and no error is signalled, but one
`user-left` with the sender's identity is still broadcast to the room. -/
theorem c6_leave_nonmember :
    (∀ (α : Type) (fetch : String → FetchOutcome) (cfg : Option String)
        (s : Registry) (sid : ConnId) (r : RoomId),
        lookupRoom s r = none →
        leaveVoiceRoom (α := α) fetch cfg s sid r = (s, [], []))
    ∧ (∀ (α : Type) (fetch : String → FetchOutcome) (cfg : Option String)
        (s : Registry) (sid : ConnId) (r : RoomId) (users : List ConnId),
        lookupRoom s r = some users → sid ∉ users → users ≠ [] →
        leaveVoiceRoom (α := α) fetch cfg s sid r
          = (s, [Event.userLeft r sid], [])) := by
  constructor
  · intro α fetch cfg s sid r hl
    simp [leaveVoiceRoom, hl]
  · intro α fetch cfg s sid r users hl hmem hne
    have hfilter : users.filter (fun u => u ≠ sid) = users :=
      filter_ne_eq_self users sid hmem
    have hlen : ¬ (users.filter (fun u => u ≠ sid)).length = 0 := by
      rw [hfilter]
      simpa using hne
    simp only [leaveVoiceRoom, hl]
    rw [if_neg hlen, hfilter, setRoom_lookup_eq s r users hl]

/-- Witness for the amended C6 at concrete inputs: leaving an unknown room,
and leaving a room one is not a member of. -/
theorem c6_leave_nonmember_witness :
    leaveVoiceRoom (α := Unit) (fun _ => FetchOutcome.ok true) none
      [("r", ["a"])] "b" "q" = ([("r", ["a"])], [], [])
    ∧ leaveVoiceRoom (α := Unit) (fun _ => FetchOutcome.ok true) (some "http://h")
        [("r", ["a"])] "b" "r" = ([("r", ["a"])], [Event.userLeft "r" "b"], []) :=
  ⟨c6_leave_nonmember.1 Unit (fun _ => FetchOutcome.ok true) none
      [("r", ["a"])] "b" "q" (by decide),
    c6_leave_nonmember.2 Unit (fun _ => FetchOutcome.ok true) (some "http://h")
      [("r", ["a"])] "b" "r" ["a"] (by decide) (by decide) (by decide)⟩

/-- C2 counterexample: a transport disconnect of a connection that belongs
to zero rooms still broadcasts `user-left` with its identity to an existing
room it was never a member of — the claim's "no user-left broadcast to
non-member rooms / no side effects for a room-less connection" is false on
the code. -/
theorem c2_counterexample :
    disconnectHandler (α := Unit) (fun _ => FetchOutcome.networkError) none
      [("a", ["x"])] "y"
      = ([("a", ["x"])], [Event.userLeft "a" "y"], [])
    ∧ ("y" : ConnId) ∉ (["x"] : List ConnId) := by
  constructor
  · decide
  · decide

/-- C2 amended: a transport disconnect removes the connection from every
room it belongs to (no room in the resulting registry contains it), and
broadcasts one `user-left` with its identity to EVERY room in the registry,
member or not; rooms the connection was not a member of keep their
membership unchanged (given no room is empty, as holds for all reachable
registries); a connection belonging to zero rooms leaves the registry
unchanged, though `user-left` is still broadcast to each existing room. -/
theorem c2_disconnect_cleanup :
    (∀ (α : Type) (fetch : String → FetchOutcome) (cfg : Option String)
        (s : Registry) (sid : ConnId),
        ∀ p ∈ (disconnectHandler (α := α) fetch cfg s sid).1, sid ∉ p.2)
    ∧ (∀ (α : Type) (fetch : String → FetchOutcome) (cfg : Option String)
        (s : Registry) (sid : ConnId),
        (disconnectHandler (α := α) fetch cfg s sid).2.1
          = s.map (fun p => Event.userLeft p.1 sid))
    ∧ (∀ (α : Type) (fetch : String → FetchOutcome) (cfg : Option String)
        (s : Registry) (sid : ConnId),
        NonEmptyInv s → ∀ p ∈ s, sid ∉ p.2 →
          p ∈ (disconnectHandler (α := α) fetch cfg s sid).1)
    ∧ (∀ (α : Type) (fetch : String → FetchOutcome) (cfg : Option String)
        (s : Registry) (sid : ConnId),
        NonEmptyInv s → (∀ p ∈ s, sid ∉ p.2) →
          (disconnectHandler (α := α) fetch cfg s sid).1 = s) := by
  refine ⟨?_, ?_, ?_, ?_⟩
  · intro α fetch cfg s sid
    rw [disconnect_registry_eq]
    intro p hp
    obtain ⟨a, ha, hfa⟩ := List.mem_filterMap.mp hp
    simp only [] at hfa
    by_cases hc : (a.2.filter (fun u => u ≠ sid)).length = 0
    · rw [if_pos hc] at hfa
      cases hfa
    · rw [if_neg hc] at hfa
      obtain rfl := (Option.some.inj hfa).symm
      intro hmem
      have hdec := (List.mem_filter.mp hmem).2
      simp at hdec
  · intro α fetch cfg s sid
    exact disconnect_events_eq fetch cfg s sid
  · intro α fetch cfg s sid hInv p hp hmem
    rw [disconnect_registry_eq]
    refine List.mem_filterMap.mpr ⟨p, hp, ?_⟩
    have hfilter : p.2.filter (fun u => u ≠ sid) = p.2 :=
      filter_ne_eq_self p.2 sid hmem
    have hlen : ¬ (p.2.filter (fun u => u ≠ sid)).length = 0 := by
      rw [hfilter]
      simpa using hInv p hp
    simp only []
    rw [if_neg hlen, hfilter, Prod.mk.eta]
  · intro α fetch cfg s sid hInv hnone
    rw [disconnect_registry_eq]
    refine filterMap_id_of_forall _ s ?_
    intro p hp
    have hfilter : p.2.filter (fun u => u ≠ sid) = p.2 :=
      filter_ne_eq_self p.2 sid (hnone p hp)
    have hlen : ¬ (p.2.filter (fun u => u ≠ sid)).length = 0 := by
      rw [hfilter]
      simpa using hInv p hp
    simp only []
    rw [if_neg hlen, hfilter, Prod.mk.eta]

/-- Witness for the amended C2 at concrete inputs: disconnecting `"b"` from
a registry holding rooms `"r1"` (where `"b"` is a member) and `"r2"` (where
it is not): `"b"` is gone from every surviving room, `user-left` goes to
both rooms, the untouched room survives intact, and disconnecting a
connection in zero rooms leaves the registry unchanged. -/
theorem c2_disconnect_cleanup_witness :
    (∀ p ∈ (disconnectHandler (α := Unit) (fun _ => FetchOutcome.ok true) none
        [("r1", ["a", "b"]), ("r2", ["c"])] "b").1, ("b" : ConnId) ∉ p.2)
    ∧ (disconnectHandler (α := Unit) (fun _ => FetchOutcome.ok true) none
        [("r1", ["a", "b"]), ("r2", ["c"])] "b").2.1
        = [Event.userLeft "r1" "b", Event.userLeft "r2" "b"]
    ∧ ("r2", ["c"]) ∈ (disconnectHandler (α := Unit) (fun _ => FetchOutcome.ok true) none
        [("r1", ["a", "b"]), ("r2", ["c"])] "b").1
    ∧ (disconnectHandler (α := Unit) (fun _ => FetchOutcome.ok true) none
        [("r1", ["a"])] "z").1 = [("r1", ["a"])] :=
  ⟨c2_disconnect_cleanup.1 Unit (fun _ => FetchOutcome.ok true) none
      [("r1", ["a", "b"]), ("r2", ["c"])] "b",
    by
      rw [c2_disconnect_cleanup.2.1 Unit (fun _ => FetchOutcome.ok true) none
        [("r1", ["a", "b"]), ("r2", ["c"])] "b"]
      rfl,
    c2_disconnect_cleanup.2.2.1 Unit (fun _ => FetchOutcome.ok true) none
      [("r1", ["a", "b"]), ("r2", ["c"])] "b"
      (by simp [NonEmptyInv]) ("r2", ["c"])
      (by decide) (by decide),
    c2_disconnect_cleanup.2.2.2 Unit (fun _ => FetchOutcome.ok true) none
      [("r1", ["a"])] "z" (by simp [NonEmptyInv]) (by decide)⟩

/-- C5: when the last member of a room leaves it via `leave-voice-room`, the
room is no longer in the registry, and exactly one finalize request — to
`{base with trailing slashes stripped}/api/audio/finalize?roomId={url-encoded
room id}` — is issued when a base URL is configured, zero when it is not;
every single leave issues at most one finalize request; and re-creating the
room (a fresh join) and emptying it again triggers the hook again,
independently. -/
theorem c5_last_leave_finalize :
    (∀ (α : Type) (fetch : String → FetchOutcome) (cfg : Option String)
        (s : Registry) (sid : ConnId) (r : RoomId) (users : List ConnId),
        lookupRoom s r = some users → users.filter (fun u => u ≠ sid) = [] →
        lookupRoom (leaveVoiceRoom (α := α) fetch cfg s sid r).1 r = none
        ∧ (leaveVoiceRoom (α := α) fetch cfg s sid r).2.2
            = (match cfg with
               | some base => [buildFinalizeUrl base r]
               | none => []))
    ∧ (∀ (α : Type) (fetch : String → FetchOutcome) (cfg : Option String)
        (s : Registry) (sid : ConnId) (r : RoomId),
        (leaveVoiceRoom (α := α) fetch cfg s sid r).2.2.length ≤ 1)
    ∧ (∀ (α : Type) (fetch : String → FetchOutcome) (cfg : Option String)
        (s : Registry) (sid sid2 : ConnId) (r : RoomId) (users : List ConnId),
        lookupRoom s r = some users → users.filter (fun u => u ≠ sid) = [] →
        (leaveVoiceRoom (α := α) fetch cfg
            (joinVoiceRoom (α := α)
              (leaveVoiceRoom (α := α) fetch cfg s sid r).1 sid2 r).1
            sid2 r).2.2
          = (match cfg with
             | some base => [buildFinalizeUrl base r]
             | none => [])) := by
  refine ⟨?_, ?_, ?_⟩
  · intro α fetch cfg s sid r users hl hempty
    rw [leave_last_member fetch cfg s sid r users hl hempty]
    exact ⟨lookup_eraseRoom_self s r, finalizeBlock_eq fetch cfg r⟩
  · intro α fetch cfg s sid r
    cases hl : lookupRoom s r with
    | none => simp [leaveVoiceRoom, hl]
    | some users =>
      simp only [leaveVoiceRoom, hl]
      by_cases he : (users.filter (fun u => u ≠ sid)).length = 0
      · rw [if_pos he]
        rw [show (eraseRoom (setRoom s r (users.filter (fun u => u ≠ sid))) r,
            ([Event.userLeft r sid] : List (Event α)),
            finalizeBlock fetch cfg r).2.2 = finalizeBlock fetch cfg r from rfl]
        rw [finalizeBlock_eq]
        cases cfg <;> simp
      · rw [if_neg he]
        simp
  · intro α fetch cfg s sid sid2 r users hl hempty
    have h1 := leave_last_member (α := α) fetch cfg s sid r users hl hempty
    have hnone : lookupRoom (leaveVoiceRoom (α := α) fetch cfg s sid r).1 r = none := by
      rw [h1]
      exact lookup_eraseRoom_self s r
    have h2 : (joinVoiceRoom (α := α)
        (leaveVoiceRoom (α := α) fetch cfg s sid r).1 sid2 r).1
        = setRoom (leaveVoiceRoom (α := α) fetch cfg s sid r).1 r [sid2] := by
      simp [joinVoiceRoom, hnone, lookup_setRoom_self, setRoom_setRoom]
    have hl2 : lookupRoom (joinVoiceRoom (α := α)
        (leaveVoiceRoom (α := α) fetch cfg s sid r).1 sid2 r).1 r = some [sid2] := by
      rw [h2]
      exact lookup_setRoom_self _ r [sid2]
    rw [leave_last_member fetch cfg _ sid2 r [sid2] hl2 (by simp)]
    exact finalizeBlock_eq fetch cfg r

/-- Witness for C5 at concrete inputs: the sole member `"a"` of room `"r"`
leaves; the room is gone and exactly one finalize request (to the built URL)
is issued under a configured base, and at most one request is issued in all
cases; emptying the re-created room fires the hook again. -/
theorem c5_last_leave_finalize_witness :
    (lookupRoom (leaveVoiceRoom (α := Unit) (fun _ => FetchOutcome.ok true)
        (some "http://h/") [("r", ["a"])] "a" "r").1 "r" = none
      ∧ (leaveVoiceRoom (α := Unit) (fun _ => FetchOutcome.ok true)
          (some "http://h/") [("r", ["a"])] "a" "r").2.2
        = [buildFinalizeUrl "http://h/" "r"])
    ∧ (leaveVoiceRoom (α := Unit) (fun _ => FetchOutcome.ok true)
        none [("r", ["a"])] "a" "r").2.2.length ≤ 1
    ∧ (leaveVoiceRoom (α := Unit) (fun _ => FetchOutcome.ok true) (some "http://h/")
        (joinVoiceRoom (α := Unit)
          (leaveVoiceRoom (α := Unit) (fun _ => FetchOutcome.ok true)
            (some "http://h/") [("r", ["a"])] "a" "r").1 "b" "r").1
        "b" "r").2.2
      = [buildFinalizeUrl "http://h/" "r"] :=
  ⟨c5_last_leave_finalize.1 Unit (fun _ => FetchOutcome.ok true) (some "http://h/")
      [("r", ["a"])] "a" "r" ["a"] (by decide) (by decide),
    c5_last_leave_finalize.2.1 Unit (fun _ => FetchOutcome.ok true) none
      [("r", ["a"])] "a" "r",
    c5_last_leave_finalize.2.2 Unit (fun _ => FetchOutcome.ok true) (some "http://h/")
      [("r", ["a"])] "a" "b" "r" ["a"] (by decide) (by decide)⟩

/-- C7: relay forwarding is content-preserving and sender-annotated:
`voice-offer{roomId, offer, to}` from `c1` produces exactly one outbound
`voice-offer` addressed to the `to` connection with `from = c1`, the offer
payload unchanged and `roomId` echoed; `voice-answer` behaves identically
with the answer payload; `ice-candidate` produces `{from, candidate}` with
no roomId field (its event shape carries none). -/
theorem c7_relay_content_preserving :
    ∀ (α : Type) (fetch : String → FetchOutcome) (cfg : Option String)
      (s : Registry) (c1 c2 : ConnId) (r : RoomId) (x : α),
      serverStep fetch cfg s c1 (Msg.voiceOffer r x c2)
        = (s, [Event.voiceOffer c2 c1 x r], [])
      ∧ serverStep fetch cfg s c1 (Msg.voiceAnswer r x c2)
        = (s, [Event.voiceAnswer c2 c1 x r], [])
      ∧ serverStep fetch cfg s c1 (Msg.iceCandidate x c2)
        = (s, [Event.iceCandidate c2 c1 x], []) := by
  intro α fetch cfg s c1 c2 r x
  exact ⟨rfl, rfl, rfl⟩

/-- C8: every relay event leaves the room registry unchanged and issues no
finalize request (no membership check, no error to the sender — the handler
is total and emits exactly the forwarded event); and, per the spec's
transport model, a send addressed to an identity with no live connection is
delivered to nobody. -/
theorem c8_relay_dead_target :
    (∀ (α : Type) (fetch : String → FetchOutcome) (cfg : Option String)
        (s : Registry) (c1 c2 : ConnId) (r : RoomId) (x : α),
        serverStep fetch cfg s c1 (Msg.voiceOffer r x c2)
          = (s, [Event.voiceOffer c2 c1 x r], [])
        ∧ serverStep fetch cfg s c1 (Msg.voiceAnswer r x c2)
          = (s, [Event.voiceAnswer c2 c1 x r], [])
        ∧ serverStep fetch cfg s c1 (Msg.iceCandidate x c2)
          = (s, [Event.iceCandidate c2 c1 x], []))
    ∧ (∀ (live : List ConnId) (tgt : ConnId),
        tgt ∉ live → deliverTo live tgt = []) := by
  constructor
  · intro α fetch cfg s c1 c2 r x
    exact ⟨rfl, rfl, rfl⟩
  · intro live tgt h
    simp [deliverTo, h]

/-- Witness for C8 at concrete inputs: an offer relayed to the offline
identity `"ghost"` leaves the registry unchanged and is delivered to no
live connection. -/
theorem c8_relay_dead_target_witness :
    (serverStep (fun _ => FetchOutcome.ok true) none [("r", ["a"])] "a"
        (Msg.voiceOffer "r" "sdp" "ghost")
      = ([("r", ["a"])], [Event.voiceOffer "ghost" "a" "sdp" "r"], [])
      ∧ serverStep (fun _ => FetchOutcome.ok true) none [("r", ["a"])] "a"
          (Msg.voiceAnswer "r" "sdp" "ghost")
        = ([("r", ["a"])], [Event.voiceAnswer "ghost" "a" "sdp" "r"], [])
      ∧ serverStep (fun _ => FetchOutcome.ok true) none [("r", ["a"])] "a"
          (Msg.iceCandidate "sdp" "ghost")
        = ([("r", ["a"])], [Event.iceCandidate "ghost" "a" "sdp"], []))
    ∧ deliverTo ["a", "b"] "ghost" = [] :=
  ⟨c8_relay_dead_target.1 String (fun _ => FetchOutcome.ok true) none
      [("r", ["a"])] "a" "ghost" "r" "sdp",
    c8_relay_dead_target.2 ["a", "b"] "ghost" (by decide)⟩

/-- C9: finalize failures are swallowed.  The registry state, the
broadcasts, and the set of issued requests of `leave-voice-room` and
`disconnect` are identical for every possible fetch outcome (network error,
non-success or malformed body included) — no failure propagates to the
connection-handling path; at most one request is attempted per finalize
invocation (never retried); and with no base URL configured the hook is
skipped silently (no request, no error). -/
theorem c9_finalize_failures_swallowed :
    (∀ (α : Type) (fetch fetchB : String → FetchOutcome) (cfg : Option String)
        (s : Registry) (sid : ConnId) (r : RoomId),
        leaveVoiceRoom (α := α) fetch cfg s sid r
          = leaveVoiceRoom (α := α) fetchB cfg s sid r)
    ∧ (∀ (α : Type) (fetch fetchB : String → FetchOutcome) (cfg : Option String)
        (s : Registry) (sid : ConnId),
        disconnectHandler (α := α) fetch cfg s sid
          = disconnectHandler (α := α) fetchB cfg s sid)
    ∧ (∀ (α : Type) (fetch : String → FetchOutcome) (s : Registry)
        (sid : ConnId) (r : RoomId),
        (leaveVoiceRoom (α := α) fetch none s sid r).2.2 = [])
    ∧ (∀ (α : Type) (fetch : String → FetchOutcome) (s : Registry) (sid : ConnId),
        (disconnectHandler (α := α) fetch none s sid).2.2 = [])
    ∧ (∀ (fetch : String → FetchOutcome) (cfg : Option String) (r : RoomId),
        (finalizeBlock fetch cfg r).length ≤ 1) := by
  refine ⟨?_, ?_, ?_, ?_, ?_⟩
  · intro α fetch fetchB cfg s sid r
    cases hl : lookupRoom s r with
    | none => simp [leaveVoiceRoom, hl]
    | some users =>
      simp only [leaveVoiceRoom, hl, finalizeBlock_eq]
  · intro α fetch fetchB cfg s sid
    induction s with
    | nil => rfl
    | cons q rest ih =>
      obtain ⟨r, users⟩ := q
      simp only [disconnectHandler, finalizeBlock_eq, ih]
  · intro α fetch s sid r
    cases hl : lookupRoom s r with
    | none => simp [leaveVoiceRoom, hl]
    | some users =>
      simp only [leaveVoiceRoom, hl]
      by_cases he : (users.filter (fun u => u ≠ sid)).length = 0
      · rw [if_pos he]
        rfl
      · rw [if_neg he]
  · intro α fetch s sid
    induction s with
    | nil => rfl
    | cons q rest ih =>
      obtain ⟨r, users⟩ := q
      simp only [disconnectHandler]
      by_cases he : (users.filter (fun u => u ≠ sid)).length = 0
      · rw [if_pos he]
        show finalizeBlock fetch none r ++ (disconnectHandler fetch none rest sid).2.2 = []
        rw [show finalizeBlock fetch none r = [] from rfl]
        simpa using ih
      · rw [if_neg he]
        simpa using ih
  · intro fetch cfg r
    rw [finalizeBlock_eq]
    cases cfg <;> simp

/-- C10: finalize URL normalization.  Appending any number of trailing
slash characters to the configured base URL yields the same finalize URL,
and the URL is always the stripped base followed by the fixed path with the
room identifier URL-encoded in the query string. -/
theorem c10_url_normalization :
    (∀ (base : String) (n : Nat) (r : RoomId),
        buildFinalizeUrl (base ++ String.mk (List.replicate n (Char.ofNat 47))) r
          = buildFinalizeUrl base r)
    ∧ (∀ (base : String) (r : RoomId),
        buildFinalizeUrl base r
          = stripTrailingSlashes base ++ "/api/audio/finalize?roomId="
            ++ encodeURIComponent r) := by
  constructor
  · intro base n r
    unfold buildFinalizeUrl
    have hstrip : stripTrailingSlashes
        (base ++ String.mk (List.replicate n (Char.ofNat 47)))
        = stripTrailingSlashes base := by
      unfold stripTrailingSlashes
      have hdata : (base ++ String.mk (List.replicate n (Char.ofNat 47))).data
          = base.data ++ List.replicate n (Char.ofNat 47) :=
        String.data_append base (String.mk (List.replicate n (Char.ofNat 47)))
      rw [hdata, List.reverse_append, List.reverse_replicate]
      have hdrop : ∀ (m : Nat) (l : List Char),
          (List.replicate m (Char.ofNat 47) ++ l).dropWhile
              (fun c => c == Char.ofNat 47)
            = l.dropWhile (fun c => c == Char.ofNat 47) := by
        intro m
        induction m with
        | zero => intro l; simp
        | succ k ih => intro l; simp [List.replicate_succ, List.dropWhile_cons, ih]
      rw [hdrop]
    rw [hstrip]
  · intro base r
    rfl

/-- Witness that the C10 statement is inhabited at concrete inputs (the
theorem has no hypotheses; this records a sample evaluation):
`"http://h//"` and `"http://h"` produce the same URL, with the room id
percent-encoded. -/
theorem c10_url_normalization_witness :
    buildFinalizeUrl ("http://h" ++ String.mk (List.replicate 2 (Char.ofNat 47))) "a b"
      = buildFinalizeUrl "http://h" "a b"
    ∧ buildFinalizeUrl "http://h" "a b"
      = "http://h/api/audio/finalize?roomId=a%20b" :=
  ⟨c10_url_normalization.1 "http://h" 2 "a b", by decide⟩

end AgoraX
